import Mathlib

/-!
Verification of the LoRa RSSI-KDF link-layer repository.

Bytes are modelled as `List Nat` (each element intended `< 256`; range
hypotheses are stated where a theorem needs them).  Machine-integer
masking (`& 0xFFFFFFFF`, `& 0x7FFFFFFF`) is modelled as `% 2^32` / `% 2^31`
on `Nat`.  The MicroPython crypto library primitives (`ucryptolib.aes`,
`uhashlib.sha256`) are external to the repository; they are modelled as an
abstract length-preserving keyed block cipher (`BlockCipher`, with its
decrypt-inverts-encrypt contract) and an abstract hash function (`HashFn`).
Concrete executable instances (`xorCipher`, `demoHash`) are provided so
that witnesses can evaluate every definition on concrete inputs.
-/

/-- ASCII bytes of a string literal, modelling Python `b"..."` / `.encode()`. -/
def strB (s : String) : List Nat := s.toList.map Char.toNat

/-- Bytes of Python `str(q).encode()` for an integer `q` (decimal, `-` sign). -/
def intStrBytes (q : Int) : List Nat := strB (toString q)

/-- Big-endian 4-byte encoding, modelling `struct.pack(">I", n)` for `n < 2^32`. -/
def be32 (n : Nat) : List Nat :=
  [n / 16777216 % 256, n / 65536 % 256, n / 256 % 256, n % 256]

/-- Big-endian 32-bit decode of (the first 4 bytes of) a byte list, modelling
`struct.unpack(">I", b4)[0]`. -/
def u32be (l : List Nat) : Nat :=
  ((l.getD 0 0 * 256 + l.getD 1 0) * 256 + l.getD 2 0) * 256 + l.getD 3 0

/-- Lower-case hex digit (as an ASCII byte) of a nibble. -/
def hexDigitByte (n : Nat) : Nat := if n < 10 then 48 + n else 87 + n

/-- Lower-case hex encoding of a byte list, modelling `ubinascii.hexlify`. -/
def hexlify (b : List Nat) : List Nat :=
  b.foldr (fun x acc => hexDigitByte (x / 16) :: hexDigitByte (x % 16) :: acc) []

/-- Value of one ASCII hex digit, `none` for a non-hex byte. -/
def hexVal (c : Nat) : Option Nat :=
  if 48 ≤ c ∧ c ≤ 57 then some (c - 48)
  else if 97 ≤ c ∧ c ≤ 102 then some (c - 87)
  else if 65 ≤ c ∧ c ≤ 70 then some (c - 55)
  else none

/-- Hex decoding, modelling `ubinascii.unhexlify`; `none` models the
`ValueError` raised on odd length or a non-hex character. -/
def unhexlify : List Nat → Option (List Nat)
  | [] => some []
  | [_] => none
  | c1 :: c2 :: rest =>
    match hexVal c1, hexVal c2, unhexlify rest with
    | some a, some b, some r => some ((a * 16 + b) :: r)
    | _, _, _ => none

/-- Pointwise XOR of two byte lists (truncating to the shorter one). -/
def xorBytes (a b : List Nat) : List Nat := List.zipWith (fun x y => x ^^^ y) a b

/-- Abstract hash function over byte strings, modelling `uhashlib.sha256`
(whose `.digest()` is a pure function of the hashed bytes). -/
def HashFn : Type := List Nat → List Nat

/-- Abstract keyed block cipher in ECB mode, modelling `ucryptolib.aes(key, 1)`:
a length-preserving keyed permutation whose decrypt inverts encrypt. -/
structure BlockCipher where
  enc : List Nat → List Nat → List Nat
  dec : List Nat → List Nat → List Nat
  dec_enc : ∀ k p, dec k (enc k p) = p
  enc_length : ∀ k p, (enc k p).length = p.length
  dec_length : ∀ k c, (dec k c).length = c.length

/-- Key-stream XOR helper used by the concrete witness cipher: byte `i` of the
input is XORed with key byte `i % 16`. -/
def xorEncAux (k : List Nat) : Nat → List Nat → List Nat
  | _, [] => []
  | i, b :: rest => (b ^^^ k.getD (i % 16) 0) :: xorEncAux k (i + 1) rest

/-- Concrete block cipher used by witnesses: XOR with a repeating key stream
(an involution, hence trivially a keyed permutation satisfying the contract). -/
def xorCipher : BlockCipher where
  enc k p := xorEncAux k 0 p
  dec k c := xorEncAux k 0 c
  dec_enc k p := by
    suffices h : ∀ i l, xorEncAux k i (xorEncAux k i l) = l from h 0 p
    intro i l
    induction l generalizing i with
    | nil => rfl
    | cons b rest ih =>
      simp only [xorEncAux, ih]
      rw [Nat.xor_assoc, Nat.xor_self, Nat.xor_zero]
  enc_length k p := by
    suffices h : ∀ i l, (xorEncAux k i l).length = List.length l from h 0 p
    intro i l
    induction l generalizing i with
    | nil => rfl
    | cons b rest ih => simp [xorEncAux, ih]
  dec_length k c := by
    suffices h : ∀ i l, (xorEncAux k i l).length = List.length l from h 0 c
    intro i l
    induction l generalizing i with
    | nil => rfl
    | cons b rest ih => simp [xorEncAux, ih]

/-- Concrete hash used by witnesses: the reversed input padded with zeros and
truncated to 32 bytes (enough to separate the inputs the witnesses hash). -/
def demoHash : HashFn := fun b => (b.reverse ++ List.replicate 32 0).take 32

/-! ## Static-hop scheduler (src/unnamed/part_000, RX copy lines 22-38,
TX copy lines 156-170, and the copy appended to src/eavesdrop.py lines 246-262).

Frequencies are floats in the source (`914.0` MHz, ...); they are represented
here as integers in units of 0.1 MHz so that the table stays exact.  The
module constant `SECRET_SEED` is taken as an explicit argument (the claim
quantifies over every 32-bit seed), and `slot`, computed in the source as
`time.ticks_ms() // HOP_INTERVAL_MS`, is likewise an argument. -/

namespace Part000Rx

def FREQ_TABLE_MHZ10 : List Nat := [9140, 9143, 9146, 9149, 9152, 9155, 9158, 9161]

def HOP_INTERVAL_MS : Nat := 10000

def SECRET_SEED : Nat := 0x1234ABCD

/-- RX copy of `_prn_from_slot`: `x = (seed ^ slot) & 0xFFFFFFFF;
x = (1103515245 * x + 12345) & 0x7FFFFFFF`. -/
def prn_from_slot (secret_seed slot : Nat) : Nat :=
  (1103515245 * ((secret_seed ^^^ slot) % 4294967296) + 12345) % 2147483648

/-- RX copy of the index computation inside `get_hop_frequency`:
`idx = prn % len(FREQ_TABLE_MHZ)`. -/
def get_hop_index (secret_seed slot : Nat) : Nat :=
  prn_from_slot secret_seed slot % FREQ_TABLE_MHZ10.length

/-- RX copy of `get_hop_frequency` (frequency part; slot is the argument). -/
def get_hop_frequency (secret_seed slot : Nat) : Nat :=
  FREQ_TABLE_MHZ10.getD (get_hop_index secret_seed slot) 0

end Part000Rx

namespace Part000Tx

def FREQ_TABLE_MHZ10 : List Nat := [9140, 9143, 9146, 9149, 9152, 9155, 9158, 9161]

def SECRET_SEED : Nat := 0x1234ABCD

/-- TX copy of `_prn_from_slot` (src/unnamed/part_000 lines 156-159). -/
def prn_from_slot (secret_seed slot : Nat) : Nat :=
  (1103515245 * ((secret_seed ^^^ slot) % 4294967296) + 12345) % 2147483648

/-- TX copy of the hop-index computation in `get_hop_frequency`. -/
def get_hop_index (secret_seed slot : Nat) : Nat :=
  prn_from_slot secret_seed slot % FREQ_TABLE_MHZ10.length

/-- TX copy of `get_hop_frequency`. -/
def get_hop_frequency (secret_seed slot : Nat) : Nat :=
  FREQ_TABLE_MHZ10.getD (get_hop_index secret_seed slot) 0

end Part000Tx

namespace EavesStatic

def FREQ_TABLE_MHZ10 : List Nat := [9140, 9143, 9146, 9149, 9152, 9155, 9158, 9161]

def SECRET_SEED : Nat := 0x1234ABCD

/-- Copy of `_prn_from_slot` appended to src/eavesdrop.py (lines 246-249). -/
def prn_from_slot (secret_seed slot : Nat) : Nat :=
  (1103515245 * ((secret_seed ^^^ slot) % 4294967296) + 12345) % 2147483648

/-- Copy of the hop-index computation in the eavesdrop file. -/
def get_hop_index (secret_seed slot : Nat) : Nat :=
  prn_from_slot secret_seed slot % FREQ_TABLE_MHZ10.length

/-- Copy of `get_hop_frequency` in the eavesdrop file. -/
def get_hop_frequency (secret_seed slot : Nat) : Nat :=
  FREQ_TABLE_MHZ10.getD (get_hop_index secret_seed slot) 0

end EavesStatic

/-- Spec-side static hop-index formula, written from the spec sentence:
`index = ((1103515245 * (secret_seed XOR slot) + 12345) mod 2^31) mod |FrequencyTable|`. -/
def specStaticIndex (secret_seed slot : Nat) : Nat :=
  (1103515245 * (secret_seed ^^^ slot) + 12345) % 2147483648 % 8

theorem static_prn_drop_mask (a c m x : Nat) :
    (a * (x % (2 * m)) + c) % m = (a * x + c) % m := by
  have h1 : x % (2 * m) ≡ x [MOD m] :=
    Nat.ModEq.of_dvd ⟨2, by ring⟩ (Nat.mod_modEq x (2 * m))
  exact (h1.mul_left a).add_right c

/-- C5: Static hop determinism and formula.  For every seed and slot the
computed channel index equals
`((1103515245 * (seed XOR slot) + 12345) mod 2^31) mod |FrequencyTable|`,
and the RX, TX and eavesdrop-file copies of `_prn_from_slot` /
`get_hop_frequency` are equal as functions of (seed, slot), so identical slot
and seed yield an identical frequency on every participant. -/
theorem c5_static_hop_determinism :
    (∀ seed slot, Part000Rx.get_hop_index seed slot = specStaticIndex seed slot)
    ∧ Part000Rx.prn_from_slot = Part000Tx.prn_from_slot
    ∧ Part000Tx.prn_from_slot = EavesStatic.prn_from_slot
    ∧ Part000Rx.get_hop_frequency = Part000Tx.get_hop_frequency
    ∧ Part000Tx.get_hop_frequency = EavesStatic.get_hop_frequency := by
  refine ⟨?_, rfl, rfl, rfl, rfl⟩
  intro seed slot
  show (1103515245 * ((seed ^^^ slot) % 4294967296) + 12345) % 2147483648 % 8
      = (1103515245 * (seed ^^^ slot) + 12345) % 2147483648 % 8
  rw [show (4294967296 : Nat) = 2 * 2147483648 from rfl,
    static_prn_drop_mask 1103515245 12345 2147483648 (seed ^^^ slot)]

/-! ## Shared protocol helpers: CBC mode, key=value frames, Python int(). -/

/-- CBC encryption over a block cipher (16-byte blocks), with an explicit fuel
argument so the definition is structural and kernel-reducible. -/
def aesCbcEncAux (C : BlockCipher) (k : List Nat) : Nat → List Nat → List Nat → List Nat
  | 0, _, _ => []
  | fuel + 1, iv, pt =>
    if pt.isEmpty then []
    else
      let blk := C.enc k (xorBytes (pt.take 16) iv)
      blk ++ aesCbcEncAux C k fuel blk (pt.drop 16)

/-- CBC-mode encryption, modelling `ucryptolib.aes(key, 2, iv).encrypt`. -/
def aesCbcEncrypt (C : BlockCipher) (k iv pt : List Nat) : List Nat :=
  aesCbcEncAux C k pt.length iv pt

/-- CBC decryption helper with explicit fuel. -/
def aesCbcDecAux (C : BlockCipher) (k : List Nat) : Nat → List Nat → List Nat → List Nat
  | 0, _, _ => []
  | fuel + 1, iv, ct =>
    if ct.isEmpty then []
    else xorBytes (C.dec k (ct.take 16)) iv ++ aesCbcDecAux C k fuel (ct.take 16) (ct.drop 16)

/-- CBC-mode decryption, modelling `ucryptolib.aes(key, 2, iv).decrypt`. -/
def aesCbcDecrypt (C : BlockCipher) (k iv ct : List Nat) : List Nat :=
  aesCbcDecAux C k ct.length iv ct

/-- Parsed key=value frame (the dict produced by `parse_kvs`), as an
association list of byte-string keys and values. -/
def KV : Type := List (List Nat × List Nat)

/-- Dictionary lookup on a parsed frame, modelling `kv.get(k)` / `k in kv`. -/
def kvGet : KV → List Nat → Option (List Nat)
  | [], _ => none
  | (k, v) :: rest, key => if k = key then some v else kvGet rest key

/-- Accumulator for decimal-digit parsing. -/
def decDigitsValAux : Nat → List Nat → Option Nat
  | acc, [] => some acc
  | acc, c :: rest =>
    if 48 ≤ c ∧ c ≤ 57 then decDigitsValAux (acc * 10 + (c - 48)) rest else none

/-- Value of a nonempty all-decimal-digit byte string, else `none`. -/
def decDigitsVal (b : List Nat) : Option Nat :=
  if b.isEmpty then none else decDigitsValAux 0 b

/-- Python `int(s)` on an ASCII byte string: optional sign then decimal digits;
`none` models the `ValueError` on anything else (surrounding whitespace and
underscore separators, which Python also tolerates, are not modelled). -/
def pyIntParse (b : List Nat) : Option Int :=
  match b with
  | 45 :: rest => (decDigitsVal rest).map (fun n => -(n : Int))
  | 43 :: rest => (decDigitsVal rest).map (fun n => (n : Int))
  | _ => (decDigitsVal b).map (fun n => (n : Int))

/-! ## Initiator (src/lora_sender.py).

The module takes the abstract hash `H` (for `uhashlib.sha256`) and block
cipher `C` (for `ucryptolib.aes`) as parameters; the rest is a direct
transcription.  RSSI values are integers throughout (`int(rssi)` is what the
caller passes), so `q_rssi` with its default `step=1` — `int(round(r/1)*1)` —
is the identity on integers. -/

namespace LoraSender

def RSSI_WINDOW_DB : Nat := 8

def RSSI_STEP_DB : Nat := 1

def TAG_BLOCK : List Nat := strB "HSK-OK-ICEWIN!!#"

def FREQ_TABLE_MHZ10 : List Nat := [9206, 9208, 9210, 9212, 9214, 9216, 9232, 9234]

def HOP_INTERVAL_MS : Nat := 4000

/-- Transcription of `u32(b4) = struct.unpack(">I", b4)[0]`. -/
def u32 (b4 : List Nat) : Nat := u32be b4

/-- Transcription of `derive_hop_seed(session_key16, q=None)`. -/
def derive_hop_seed (H : HashFn) (session_key16 : List Nat) (q : Option Int) : Nat :=
  match q with
  | none => u32 ((H (strB "FHSS-SEED-v1|" ++ session_key16)).take 4)
  | some qv =>
    u32 ((H (strB "FHSS-SEED-v1|" ++ session_key16 ++ strB "|" ++ intStrBytes qv)).take 4)

/-- Transcription of `hop_idx_for_slot(hop_seed_u32, slot)`. -/
def hop_idx_for_slot (H : HashFn) (hop_seed_u32 slot : Nat) : Nat :=
  (H (strB "FHSS-HOP-v1|" ++ be32 (hop_seed_u32 % 4294967296)
      ++ be32 (slot % 4294967296))).getD 0 0 % FREQ_TABLE_MHZ10.length

/-- Transcription of `hop_freq_for_slot_seeded(hop_seed_u32, slot)`. -/
def hop_freq_for_slot_seeded (H : HashFn) (hop_seed_u32 slot : Nat) : Nat :=
  FREQ_TABLE_MHZ10.getD (hop_idx_for_slot H hop_seed_u32 slot) 0

/-- Transcription of `q_rssi(rssi_dbm, step=1)` at integer inputs. -/
def q_rssi (rssi_dbm : Int) : Int := rssi_dbm

/-- Transcription of `kdf_from_rssi_and_nonce(q, nonce_bytes)`. -/
def kdf_from_rssi_and_nonce (H : HashFn) (q : Int) (nonce_bytes : List Nat) : List Nat :=
  (H (strB "RSSI-KDFv1|" ++ intStrBytes q ++ strB "|" ++ nonce_bytes)).take 16

/-- Transcription of `aes_ecb_decrypt(key16, ct)`. -/
def aes_ecb_decrypt (C : BlockCipher) (key16 ct : List Nat) : List Nat := C.dec key16 ct

/-- Transcription of `pkcs7_pad(b)`. -/
def pkcs7_pad (b : List Nat) : List Nat :=
  b ++ List.replicate (16 - b.length % 16) (16 - b.length % 16)

/-- Transcription of `pkcs7_unpad(b)` (sender copy); `none` models the raised
`ValueError` (and the `IndexError` of `b[-1]` on empty input). -/
def pkcs7_unpad (b : List Nat) : Option (List Nat) :=
  match b.getLast? with
  | none => none
  | some pad =>
    if pad < 1 ∨ 16 < pad ∨ b.drop (b.length - pad) ≠ List.replicate pad pad then none
    else some (b.take (b.length - pad))

/-- Transcription of `enc_msg_cbc(key16, msg_str)`; the random `iv` is an
explicit argument, the UTF-8 `encode` of the message is modelled at byte
level, and the result is the `(iv_hex, ct_hex)` pair. -/
def enc_msg_cbc (C : BlockCipher) (key16 iv msg : List Nat) : List Nat × List Nat :=
  (hexlify iv, hexlify (aesCbcEncrypt C key16 iv (pkcs7_pad msg)))

/-- Transcription of `derive_msg_key(master_key, counter)` (sender copy);
`counter & 0xFFFFFFFF` on a Python int is `counter mod 2^32`. -/
def derive_msg_key (H : HashFn) (master_key : List Nat) (counter : Int) : List Nat :=
  (H (strB "MSG-KDF-v1|" ++ master_key ++ strB "|"
    ++ be32 ((counter % 4294967296).toNat))).take 16

/-- Candidate offsets `range(-RSSI_WINDOW_DB, RSSI_WINDOW_DB + 1, RSSI_STEP_DB)`. -/
def dq_list : List Int :=
  (List.range (2 * RSSI_WINDOW_DB + 1)).map
    (fun n : Nat => (n : Int) - (RSSI_WINDOW_DB : Int))

/-- Candidate quantized-RSSI values scanned by the brute-force unwrap. -/
def candidate_qs (rssi_reply_dbm : Int) : List Int :=
  dq_list.map (fun dq => q_rssi (rssi_reply_dbm + dq))

/-- Scan loop of `unwrap_session_key_bruteforce`: decrypt under each candidate
key, skip when the plaintext is not 32 bytes, accept the first candidate whose
trailing 16 bytes equal `TAG_BLOCK`. -/
def unwrap_scan (C : BlockCipher) (H : HashFn) (ek nonce : List Nat) :
    List Int → Option (List Nat) × Option Int
  | [] => (none, none)
  | q :: qs =>
    let K := kdf_from_rssi_and_nonce H q nonce
    let pt := aes_ecb_decrypt C K ek
    if pt.length ≠ 32 then unwrap_scan C H ek nonce qs
    else if (pt.drop 16).take 16 = TAG_BLOCK then (some (pt.take 16), some q)
    else unwrap_scan C H ek nonce qs

/-- Transcription of `unwrap_session_key_bruteforce(ek_hex, nonce_hex,
rssi_reply_dbm)`; the outer `none` models the `ValueError` that `unhexlify`
raises past the function on malformed hex. -/
def unwrap_session_key_bruteforce (C : BlockCipher) (H : HashFn)
    (ek_hex nonce_hex : List Nat) (rssi_reply_dbm : Int) :
    Option (Option (List Nat) × Option Int) :=
  match unhexlify ek_hex, unhexlify nonce_hex with
  | some ek, some nonce => some (unwrap_scan C H ek nonce (candidate_qs rssi_reply_dbm))
  | _, _ => none

end LoraSender

/-! ## Responder (src/lora_receiver.py). -/

namespace LoraReceiver

def TAG_BLOCK : List Nat := strB "HSK-OK-ICEWIN!!#"

def FREQ_TABLE_MHZ10 : List Nat := [9206, 9208, 9210, 9212, 9214, 9216, 9232, 9234]

def HOP_INTERVAL_MS : Nat := 4000

/-- Transcription of `u32(b4)` (receiver copy). -/
def u32 (b4 : List Nat) : Nat := u32be b4

/-- Transcription of `derive_hop_seed(session_key16, q=None)` (receiver copy). -/
def derive_hop_seed (H : HashFn) (session_key16 : List Nat) (q : Option Int) : Nat :=
  match q with
  | none => u32 ((H (strB "FHSS-SEED-v1|" ++ session_key16)).take 4)
  | some qv =>
    u32 ((H (strB "FHSS-SEED-v1|" ++ session_key16 ++ strB "|" ++ intStrBytes qv)).take 4)

/-- Transcription of `hop_idx_for_slot(hop_seed_u32, slot)` (receiver copy). -/
def hop_idx_for_slot (H : HashFn) (hop_seed_u32 slot : Nat) : Nat :=
  (H (strB "FHSS-HOP-v1|" ++ be32 (hop_seed_u32 % 4294967296)
      ++ be32 (slot % 4294967296))).getD 0 0 % FREQ_TABLE_MHZ10.length

/-- Transcription of `hop_freq_for_slot_seeded(hop_seed_u32, slot)` (receiver copy). -/
def hop_freq_for_slot_seeded (H : HashFn) (hop_seed_u32 slot : Nat) : Nat :=
  FREQ_TABLE_MHZ10.getD (hop_idx_for_slot H hop_seed_u32 slot) 0

/-- Transcription of `q_rssi(rssi_dbm, step=1)` (receiver copy) at integer inputs. -/
def q_rssi (rssi_dbm : Int) : Int := rssi_dbm

/-- Transcription of `kdf_from_rssi_and_nonce(q, nonce_bytes)` (receiver copy). -/
def kdf_from_rssi_and_nonce (H : HashFn) (q : Int) (nonce_bytes : List Nat) : List Nat :=
  (H (strB "RSSI-KDFv1|" ++ intStrBytes q ++ strB "|" ++ nonce_bytes)).take 16

/-- Transcription of `aes_ecb_encrypt(key16, block16_mul)`. -/
def aes_ecb_encrypt (C : BlockCipher) (key16 block16_mul : List Nat) : List Nat :=
  C.enc key16 block16_mul

/-- Transcription of `pkcs7_unpad(b)` (receiver copy): `none` models the raised
`ValueError` (and the `IndexError` of `b[-1]` on empty input). -/
def pkcs7_unpad (b : List Nat) : Option (List Nat) :=
  match b.getLast? with
  | none => none
  | some pad =>
    if pad < 1 ∨ 16 < pad ∨ b.drop (b.length - pad) ≠ List.replicate pad pad then none
    else some (b.take (b.length - pad))

/-- Transcription of `dec_msg_cbc(key16, iv_hex, ct_hex)`; `none` models any
raised exception (bad hex, bad padding); the final UTF-8 `.decode()` is
modelled at byte level. -/
def dec_msg_cbc (C : BlockCipher) (key16 iv_hex ct_hex : List Nat) : Option (List Nat) :=
  match unhexlify iv_hex, unhexlify ct_hex with
  | some iv, some ct => pkcs7_unpad (aesCbcDecrypt C key16 iv ct)
  | _, _ => none

/-- Transcription of `derive_msg_key(master_key, counter)` (receiver copy). -/
def derive_msg_key (H : HashFn) (master_key : List Nat) (counter : Int) : List Nat :=
  (H (strB "MSG-KDF-v1|" ++ master_key ++ strB "|"
    ++ be32 ((counter % 4294967296).toNat))).take 16

/-- KeyReply wrapping in the HELLO handler (lines 214-216):
`ek = aes_ecb_encrypt(K, session_key + TAG_BLOCK)` with
`K = kdf_from_rssi_and_nonce(q, nonce)`. -/
def wrap_session_key (C : BlockCipher) (H : HashFn) (q : Int)
    (nonce session_key : List Nat) : List Nat :=
  aes_ecb_encrypt C (kdf_from_rssi_and_nonce H q nonce) (session_key ++ TAG_BLOCK)

/-- Receiver session state relevant to the data-frame handler. -/
structure RxState where
  session_key : Option (List Nat)
  hop_seed : Option Nat
deriving DecidableEq

/-- Data-frame branch of the receiver main loop (lines 229-246): the guard
`if session_key and kv.get("kind") == "data" and "iv" in kv and "msg" in kv
and "counter" in kv`, then the `try` block deriving the message key and
decrypting; every failure inside the `try` (non-integer counter, bad hex,
bad padding) is caught and yields no output.  The returned state is the
(unchanged) session state; the second component is the decrypted message,
`none` when the frame is dropped. -/
def handle_data_frame (C : BlockCipher) (H : HashFn) (st : RxState) (kv : KV) :
    RxState × Option (List Nat) :=
  match st.session_key with
  | none => (st, none)
  | some mk0 =>
    if mk0.isEmpty then (st, none)
    else if kvGet kv (strB "kind") = some (strB "data")
        ∧ (kvGet kv (strB "iv")).isSome ∧ (kvGet kv (strB "msg")).isSome
        ∧ (kvGet kv (strB "counter")).isSome then
      match kvGet kv (strB "counter") with
      | none => (st, none)
      | some cs =>
        match pyIntParse cs with
        | none => (st, none)
        | some ctr =>
          match kvGet kv (strB "iv"), kvGet kv (strB "msg") with
          | some ivh, some cth =>
            (st, dec_msg_cbc C (derive_msg_key H mk0 ctr) ivh cth)
          | _, _ => (st, none)
    else (st, none)

end LoraReceiver

/-! ## Sniffer (src/eavesdrop.py, first script). -/

namespace Eavesdrop

def Q_MIN : Int := -40

def Q_MAX : Int := 0

def TAG_BLOCK : List Nat := strB "HSK-OK-ICEWIN!!#"

/-- Transcription of `kdf_from_rssi_and_nonce(q, nonce_bytes)` (sniffer copy). -/
def kdf_from_rssi_and_nonce (H : HashFn) (q : Int) (nonce_bytes : List Nat) : List Nat :=
  (H (strB "RSSI-KDFv1|" ++ intStrBytes q ++ strB "|" ++ nonce_bytes)).take 16

/-- Transcription of `aes_ecb_decrypt(key16, ct_bytes)` (sniffer copy). -/
def aes_ecb_decrypt (C : BlockCipher) (key16 ct_bytes : List Nat) : List Nat :=
  C.dec key16 ct_bytes

/-- Transcription of `pkcs7_unpad(b)` (sniffer copy). -/
def pkcs7_unpad (b : List Nat) : Option (List Nat) :=
  match b.getLast? with
  | none => none
  | some pad =>
    if pad < 1 ∨ 16 < pad ∨ b.drop (b.length - pad) ≠ List.replicate pad pad then none
    else some (b.take (b.length - pad))

/-- Transcription of `dec_msg_cbc(key16, iv_hex, ct_hex)` (sniffer copy). -/
def dec_msg_cbc (C : BlockCipher) (key16 iv_hex ct_hex : List Nat) : Option (List Nat) :=
  match unhexlify iv_hex, unhexlify ct_hex with
  | some iv, some ct => pkcs7_unpad (aesCbcDecrypt C key16 iv ct)
  | _, _ => none

/-- Per-nonce record of the `handshakes` dict:
`{"hello_seen": bool, "ek_hex": str or None, "sess": bytes or None}`. -/
structure HSRec where
  hello_seen : Bool
  ek_hex : Option (List Nat)
  sess : Option (List Nat)
deriving DecidableEq

/-- Sniffer module state: the `handshakes` dict (keyed by `nonce_hex`),
`active_nonce` and `active_session_key`. -/
structure SnifferSt where
  handshakes : List (List Nat × HSRec)
  active_nonce : Option (List Nat)
  active_session_key : Option (List Nat)
deriving DecidableEq

/-- Dict lookup `handshakes.get(nonce_hex)`. -/
def hsGet : List (List Nat × HSRec) → List Nat → Option HSRec
  | [], _ => none
  | (k, v) :: rest, key => if k = key then some v else hsGet rest key

/-- Dict assignment `handshakes[nonce_hex] = hs` (replace or append). -/
def hsSet : List (List Nat × HSRec) → List Nat → HSRec → List (List Nat × HSRec)
  | [], key, v => [(key, v)]
  | (k, w) :: rest, key, v =>
    if k = key then (k, v) :: rest else (k, w) :: hsSet rest key v

/-- Transcription of `note_hello(nonce_hex)`: record `hello_seen`; the active
key is deliberately NOT cleared (source comment: keep current key until a new
one is recovered). -/
def note_hello (nonce_hex : List Nat) (st : SnifferSt) : SnifferSt :=
  let hs := (hsGet st.handshakes nonce_hex).getD ⟨false, none, none⟩
  { st with handshakes := hsSet st.handshakes nonce_hex { hs with hello_seen := true } }

/-- Transcription of `note_ek(nonce_hex, ek_hex)`. -/
def note_ek (nonce_hex ek_hex : List Nat) (st : SnifferSt) : SnifferSt :=
  let hs := (hsGet st.handshakes nonce_hex).getD ⟨false, none, none⟩
  { st with handshakes := hsSet st.handshakes nonce_hex { hs with ek_hex := some ek_hex } }

/-- Brute-force range `range(Q_MIN, Q_MAX + 1)` = `[-40..0]`. -/
def q_range : List Int := (List.range 41).map (fun n : Nat => Q_MIN + (n : Int))

/-- Scan loop of `try_recover_key`: first `q` whose decrypt is 32 bytes with
trailing 16 bytes equal to `TAG_BLOCK` yields `(sess, q)`. -/
def recover_scan (C : BlockCipher) (H : HashFn) (ek nonce : List Nat) :
    List Int → Option (List Nat × Int)
  | [] => none
  | q :: qs =>
    let K := kdf_from_rssi_and_nonce H q nonce
    let pt := aes_ecb_decrypt C K ek
    if pt.length ≠ 32 then recover_scan C H ek nonce qs
    else if (pt.drop 16).take 16 = TAG_BLOCK then some (pt.take 16, q)
    else recover_scan C H ek nonce qs

/-- Transcription of `try_recover_key(nonce_hex)`: returns the `True`/`False`
result together with the updated module state.  `if not hs.get("ek_hex")` is
Python truthiness, so an empty stored hex string also returns `False`; a hex
`ValueError` is caught and returns `False`. -/
def try_recover_key (C : BlockCipher) (H : HashFn) (nonce_hex : List Nat)
    (st : SnifferSt) : Bool × SnifferSt :=
  match hsGet st.handshakes nonce_hex with
  | none => (false, st)
  | some hs =>
    match hs.ek_hex with
    | none => (false, st)
    | some ekhx =>
      if ekhx.isEmpty then (false, st)
      else
        match unhexlify nonce_hex, unhexlify ekhx with
        | some nonce, some ek =>
          match recover_scan C H ek nonce q_range with
          | some (sess, _) =>
            (true,
              { handshakes := hsSet st.handshakes nonce_hex { hs with sess := some sess }
                active_nonce := some nonce_hex
                active_session_key := some sess })
          | none => (false, st)
        | _, _ => (false, st)

/-- Data-frame branch of the sniffer main loop (lines 175-196): when the frame
carries `kind=data`, `iv` and `msg`, decrypt the `msg` field directly with
`active_session_key` (no output when no key is active or decryption fails). -/
def sniffer_data_step (C : BlockCipher) (st : SnifferSt) (kv : KV) : Option (List Nat) :=
  if kvGet kv (strB "kind") = some (strB "data")
      ∧ (kvGet kv (strB "iv")).isSome ∧ (kvGet kv (strB "msg")).isSome then
    match st.active_session_key, kvGet kv (strB "iv"), kvGet kv (strB "msg") with
    | some k, some ivh, some cth => dec_msg_cbc C k ivh cth
    | _, _, _ => none
  else none

end Eavesdrop

/-! ## Radio driver receive loops (src/lora_min.py).

The polled IRQ register reads and the elapsed time at each poll are the
inputs: `recv` / `recv_keep_rx` poll `REG_IRQ_FLAGS` in a `while True` loop.
Each list element is one loop iteration `(irq, elapsed)` where `elapsed`
models `time.ticks_diff(time.ticks_ms(), t0)`.  `none` means the trace ended
with the loop still polling. -/

namespace LoraMin

def IRQ_RX_DONE_MASK : Nat := 0x40

def IRQ_PAYLOAD_CRC_ERROR : Nat := 0x20

/-- Possible ways a receive call returns. -/
inductive RecvOutcome where
  | frame (payload : List Nat)
  | crcError
  | timedOut
deriving DecidableEq

/-- Polling loop of `SX1276.recv(timeout_ms)`: on RX_DONE return the payload
(or a CRC error); otherwise check `if timeout_ms and ticks_diff(...) >
timeout_ms` — with `timeout_ms = 0` that condition is always false. -/
def recv_poll (timeout_ms : Nat) (payload : List Nat) :
    List (Nat × Nat) → Option RecvOutcome
  | [] => none
  | (irq, elapsed) :: rest =>
    if irq &&& IRQ_RX_DONE_MASK ≠ 0 then
      if irq &&& IRQ_PAYLOAD_CRC_ERROR ≠ 0 then some RecvOutcome.crcError
      else some (RecvOutcome.frame payload)
    else if timeout_ms ≠ 0 ∧ timeout_ms < elapsed then some RecvOutcome.timedOut
    else recv_poll timeout_ms payload rest

/-- Polling loop of `SX1276.recv_keep_rx(timeout_ms)` (lines 191-224): the
same control flow as `recv` (it only differs in radio-mode side effects). -/
def recv_keep_rx_poll (timeout_ms : Nat) (payload : List Nat) :
    List (Nat × Nat) → Option RecvOutcome
  | [] => none
  | (irq, elapsed) :: rest =>
    if irq &&& IRQ_RX_DONE_MASK ≠ 0 then
      if irq &&& IRQ_PAYLOAD_CRC_ERROR ≠ 0 then some RecvOutcome.crcError
      else some (RecvOutcome.frame payload)
    else if timeout_ms ≠ 0 ∧ timeout_ms < elapsed then some RecvOutcome.timedOut
    else recv_keep_rx_poll timeout_ms payload rest

end LoraMin

/-- Timeout the sniffer main loop passes to `recv` (`lora.recv(timeout_ms=0)`,
src/eavesdrop.py line 134). -/
def Eavesdrop.SNIFFER_RECV_TIMEOUT_MS : Nat := 0

/-! ## Initiator handshake state machine (src/lora_sender.py main loop,
lines 207-272).

One handshake attempt is a function of the fresh nonce drawn for that
attempt, the (parsed) reply frame received — `none` when no reply arrived —
and the measured reply RSSI.  The unbounded retry loop consumes a stream of
nonces (one `urandom(8)` draw per attempt), mirroring that every retry
generates a fresh nonce. -/

namespace LoraSender

/-- Initiator session state: `session_key`, `hop_seed` (both `None` until
`Established`) and the index of the next entropy draw (which attempt is next). -/
structure SenderSt where
  session_key : Option (List Nat)
  hop_seed : Option Nat
  attempt : Nat
deriving DecidableEq

/-- One handshake attempt (lines 225-267) given the already-drawn nonce:
check `ek`/`nonce`/`start_in` presence, discard on echoed-nonce mismatch,
parse `start_in` (a `ValueError` is caught by the surrounding `try`), then
brute-force unwrap; `some (session_key, hop_seed)` exactly on the
`Established` transition.  `if session_key:` is Python truthiness, so an
empty unwrapped key would also retry. -/
def attempt_once (C : BlockCipher) (H : HashFn) (nonce8 : List Nat)
    (reply : Option KV) (rssi : Int) : Option (List Nat × Nat) :=
  match reply with
  | none => none
  | some kv =>
    match kvGet kv (strB "ek"), kvGet kv (strB "nonce"), kvGet kv (strB "start_in") with
    | some ekv, some nv, some sv =>
      if nv ≠ hexlify nonce8 then none
      else
        match pyIntParse sv with
        | none => none
        | some _start_in =>
          match unwrap_session_key_bruteforce C H ekv nv rssi with
          | some (some sk, some q) =>
            if sk.isEmpty then none else some (sk, derive_hop_seed H sk (some q))
          | _ => none
    | _, _, _ => none

/-- Retry loop: attempt `st.attempt` uses nonce draw `nonces st.attempt`;
a failed attempt leaves the keys unset and moves to the next draw, a
successful one stores `session_key` and `hop_seed`. -/
def handshake_loop (C : BlockCipher) (H : HashFn) (nonces : Nat → List Nat)
    (replies : Nat → Option KV) (rssis : Nat → Int) : Nat → SenderSt
  | 0 => ⟨none, none, 0⟩
  | k + 1 =>
    let st := handshake_loop C H nonces replies rssis k
    match st.session_key with
    | some _ => st
    | none =>
      match attempt_once C H (nonces st.attempt) (replies st.attempt) (rssis st.attempt) with
      | some (sk, hs) => { st with session_key := some sk, hop_seed := some hs }
      | none => { st with attempt := st.attempt + 1 }

end LoraSender

/-! ## Spec-side formulas (transcribed from the spec text, for comparison
against the source-derived definitions). -/

/-- Spec-side Variant A message key: `Hash("MSG-KDF-v1|" + SessionKey +
be32(counter))[:16]` — note: no separator between the session key and the
counter bytes. -/
def specMsgKeyA (H : HashFn) (sessionKey : List Nat) (counter : Int) : List Nat :=
  (H (strB "MSG-KDF-v1|" ++ sessionKey ++ be32 ((counter % 4294967296).toNat))).take 16

/-- Spec-side dynamic hop seed with quantized RSSI:
`first_4_bytes(Hash("FHSS-SEED-v1|" + session_key + "|" + quantized_rssi))`
read as a big-endian u32. -/
def specDynamicSeedQ (H : HashFn) (sessionKey : List Nat) (q : Int) : Nat :=
  u32be ((H (strB "FHSS-SEED-v1|" ++ sessionKey ++ strB "|" ++ intStrBytes q)).take 4)

/-- Spec-side dynamic hop seed without quantized RSSI. -/
def specDynamicSeedNoQ (H : HashFn) (sessionKey : List Nat) : Nat :=
  u32be ((H (strB "FHSS-SEED-v1|" ++ sessionKey)).take 4)

/-- Spec-side dynamic hop index:
`Hash("FHSS-HOP-v1|" + be32(hop_seed) + be32(slot))[0] mod |FrequencyTable|`. -/
def specDynamicIdx (H : HashFn) (hop_seed slot : Nat) : Nat :=
  (H (strB "FHSS-HOP-v1|" ++ be32 (hop_seed % 4294967296)
    ++ be32 (slot % 4294967296))).getD 0 0 % 8

/-! ## Concrete inputs used by witnesses and counterexamples. -/

namespace Wit

/-- Concrete 16-byte session key. -/
def sk16 : List Nat := [0, 1, 2, 3, 4, 5, 6, 7, 8, 9, 10, 11, 12, 13, 14, 15]

/-- Concrete 8-byte nonce. -/
def nonce8 : List Nat := [1, 2, 3, 4, 5, 6, 7, 8]

/-- Second, different 8-byte nonce (for the re-handshake scenarios). -/
def nonce8b : List Nat := [9, 9, 9, 9, 9, 9, 9, 9]

/-- KeyReply block the Responder would produce for `q = -73` (C1 scenario). -/
def ekC1 : List Nat :=
  LoraReceiver.wrap_session_key xorCipher demoHash (-73) nonce8 sk16

/-- KeyReply block the Responder would produce for `q = -20` (C3 scenario). -/
def ekC3 : List Nat :=
  LoraReceiver.wrap_session_key xorCipher demoHash (-20) nonce8 sk16

/-- Corrupted 32-byte wrapped block that matches no candidate. -/
def ekBad : List Nat := List.replicate 32 7

/-- KeyReply block for the sniffer-lifetime scenario (C9), `q = -5`. -/
def ekC9 : List Nat :=
  LoraReceiver.wrap_session_key xorCipher demoHash (-5) nonce8 sk16

/-- Sniffer state after observing and breaking the first handshake (C9). -/
def stC9 : Eavesdrop.SnifferSt :=
  (Eavesdrop.try_recover_key xorCipher demoHash (hexlify nonce8)
    (Eavesdrop.note_ek (hexlify nonce8) (hexlify ekC9) ⟨[], none, none⟩)).2

/-- Concrete CBC initialization vector. -/
def iv16 : List Nat := [3, 3, 3, 3, 3, 3, 3, 3, 3, 3, 3, 3, 3, 3, 3, 3]

/-- Concrete plaintext message. -/
def msgHi : List Nat := strB "hi there"

/-- Data frame encrypted (as the sniffer model decrypts it) directly under
`sk16`, used to show the recovered key still decrypts after a new Hello. -/
def kvDataC9 : KV :=
  [(strB "kind", strB "data"),
   (strB "iv", hexlify iv16),
   (strB "msg", hexlify (aesCbcEncrypt xorCipher sk16 iv16 (LoraSender.pkcs7_pad msgHi))),
   (strB "counter", strB "0")]

/-- Reply frame whose echoed nonce does not match the issued one (C7). -/
def kvBadNonce : KV :=
  [(strB "ek", hexlify ekC1),
   (strB "nonce", hexlify nonce8b),
   (strB "start_in", strB "2000")]

/-- Nonce stream for the C7 witness (attempt `i` draws byte pattern `i`). -/
def noncesW : Nat → List Nat := fun i => [i % 256, 2, 3, 4, 5, 6, 7, 8]

/-- Reply stream for the C7 witness: every attempt sees the mismatched reply. -/
def repliesW : Nat → Option KV := fun _ => some kvBadNonce

/-- RSSI stream for the C7 witness. -/
def rssisW : Nat → Int := fun _ => -70

end Wit

/-! ## Receiver copy appended inside src/eavesdrop.py (second script). -/

namespace EavesApp

/-- Transcription of `derive_msg_key(master_key, counter)` (copy at
src/eavesdrop.py lines 313-319). -/
def derive_msg_key (H : HashFn) (master_key : List Nat) (counter : Int) : List Nat :=
  (H (strB "MSG-KDF-v1|" ++ master_key ++ strB "|"
    ++ be32 ((counter % 4294967296).toNat))).take 16

end EavesApp

/-! ## Helper lemmas. -/

theorem hexVal_hexDigitByte : ∀ n < 16, hexVal (hexDigitByte n) = some n := by decide

theorem unhexlify_hexlify (b : List Nat) (hb : ∀ x ∈ b, x < 256) :
    unhexlify (hexlify b) = some b := by
  induction b with
  | nil => rfl
  | cons x rest ih =>
    have hx : x < 256 := hb x (List.mem_cons_self x rest)
    have ih2 := ih (fun y hy => hb y (List.mem_cons_of_mem x hy))
    have h1 : hexVal (hexDigitByte (x / 16)) = some (x / 16) :=
      hexVal_hexDigitByte _ (by omega)
    have h2 : hexVal (hexDigitByte (x % 16)) = some (x % 16) :=
      hexVal_hexDigitByte _ (by omega)
    have hx2 : x / 16 * 16 + x % 16 = x := by omega
    show unhexlify (hexDigitByte (x / 16) :: hexDigitByte (x % 16) :: hexlify rest)
        = some (x :: rest)
    simp [unhexlify, h1, h2, ih2, hx2]

theorem hexlify_isEmpty_false {b : List Nat} (hb : b ≠ []) : (hexlify b).isEmpty = false := by
  cases b with
  | nil => exact absurd rfl hb
  | cons x r => rfl

theorem xorBytes_length (a b : List Nat) : (xorBytes a b).length = min a.length b.length :=
  List.length_zipWith _ a b

theorem xorBytes_cancel : ∀ (a b : List Nat), a.length ≤ b.length →
    xorBytes (xorBytes a b) b = a
  | [], _, _ => rfl
  | x :: xs, y :: ys, h => by
    show (x ^^^ y ^^^ y) :: xorBytes (xorBytes xs ys) ys = x :: xs
    rw [Nat.xor_cancel_right, xorBytes_cancel xs ys (by simpa using h)]
  | x :: xs, [], h => by simp at h

theorem append_isEmpty_false {l m : List Nat} (h : l.length = 16) :
    (l ++ m).isEmpty = false := by
  cases l with
  | nil => simp at h
  | cons a t => rfl

theorem getLast?_append_replicate (b : List Nat) {p v : Nat} (h : 1 ≤ p) :
    (b ++ List.replicate p v).getLast? = some v := by
  cases p with
  | zero => omega
  | succ n => rw [List.replicate_succ', ← List.append_assoc, List.getLast?_concat]

theorem aesCbcEncAux_nil (C : BlockCipher) (k : List Nat) (f : Nat) (iv : List Nat) :
    aesCbcEncAux C k f iv [] = [] := by
  cases f <;> rfl

theorem aesCbcDecAux_nil (C : BlockCipher) (k : List Nat) (f : Nat) (iv : List Nat) :
    aesCbcDecAux C k f iv [] = [] := by
  cases f <;> rfl

theorem aesCbcEncAux_length (C : BlockCipher) (k : List Nat) :
    ∀ (n fe : Nat) (iv pt : List Nat), pt.length = 16 * n → iv.length = 16 → n ≤ fe →
      (aesCbcEncAux C k fe iv pt).length = pt.length := by
  intro n
  induction n with
  | zero =>
    intro fe iv pt hpt _ _
    have hnil : pt = [] := List.length_eq_zero.mp (by omega)
    subst hnil
    rw [aesCbcEncAux_nil]
  | succ n ih =>
    intro fe iv pt hpt hiv hfe
    cases fe with
    | zero => omega
    | succ fe =>
      have hne : pt.isEmpty = false := by
        cases pt with
        | nil => simp at hpt
        | cons a l => rfl
      have htl : (pt.take 16).length = 16 := by
        rw [List.length_take]; omega
      have hblk : (C.enc k (xorBytes (pt.take 16) iv)).length = 16 := by
        rw [C.enc_length, xorBytes_length, htl, hiv]; simp
      have hdl : (pt.drop 16).length = 16 * n := by
        rw [List.length_drop]; omega
      show (aesCbcEncAux C k (fe + 1) iv pt).length = pt.length
      rw [aesCbcEncAux, hne]
      simp only [Bool.false_eq_true, if_false, List.length_append, hblk]
      rw [ih fe _ (pt.drop 16) hdl hblk (by omega)]
      omega

theorem aesCbc_roundtrip_aux (C : BlockCipher) (k : List Nat) :
    ∀ (n fe fd : Nat) (iv pt : List Nat), pt.length = 16 * n → iv.length = 16 →
      n ≤ fe → n ≤ fd →
      aesCbcDecAux C k fd iv (aesCbcEncAux C k fe iv pt) = pt := by
  intro n
  induction n with
  | zero =>
    intro fe fd iv pt hpt _ _ _
    have hnil : pt = [] := List.length_eq_zero.mp (by omega)
    subst hnil
    rw [aesCbcEncAux_nil, aesCbcDecAux_nil]
  | succ n ih =>
    intro fe fd iv pt hpt hiv hfe hfd
    cases fe with
    | zero => omega
    | succ fe =>
      cases fd with
      | zero => omega
      | succ fd =>
        have hne : pt.isEmpty = false := by
          cases pt with
          | nil => simp at hpt
          | cons a l => rfl
        have htl : (pt.take 16).length = 16 := by
          rw [List.length_take]; omega
        have hblk : (C.enc k (xorBytes (pt.take 16) iv)).length = 16 := by
          rw [C.enc_length, xorBytes_length, htl, hiv]; simp
        have hdl : (pt.drop 16).length = 16 * n := by
          rw [List.length_drop]; omega
        show aesCbcDecAux C k (fd + 1) iv (aesCbcEncAux C k (fe + 1) iv pt) = pt
        rw [aesCbcEncAux, hne]
        simp only [Bool.false_eq_true, if_false]
        set blk := C.enc k (xorBytes (pt.take 16) iv) with hblkdef
        have hctne : (blk ++ aesCbcEncAux C k fe blk (pt.drop 16)).isEmpty = false :=
          append_isEmpty_false hblk
        rw [aesCbcDecAux, hctne]
        simp only [Bool.false_eq_true, if_false]
        have htake : (blk ++ aesCbcEncAux C k fe blk (pt.drop 16)).take 16 = blk := by
          rw [← hblk, List.take_left]
        have hdrop : (blk ++ aesCbcEncAux C k fe blk (pt.drop 16)).drop 16
            = aesCbcEncAux C k fe blk (pt.drop 16) := by
          rw [← hblk, List.drop_left]
        rw [htake, hdrop, hblkdef, C.dec_enc,
          xorBytes_cancel _ _ (by rw [htl, hiv]),
          ih fe fd blk (pt.drop 16) hdl hblk (by omega) (by omega),
          List.take_append_drop]

theorem aesCbc_roundtrip (C : BlockCipher) (k iv pt : List Nat)
    (hpt : 16 ∣ pt.length) (hiv : iv.length = 16) :
    aesCbcDecrypt C k iv (aesCbcEncrypt C k iv pt) = pt := by
  obtain ⟨n, hn⟩ := hpt
  have hfe : n ≤ pt.length := by omega
  have hlen : (aesCbcEncAux C k pt.length iv pt).length = pt.length :=
    aesCbcEncAux_length C k n pt.length iv pt hn hiv hfe
  rw [aesCbcDecrypt, aesCbcEncrypt, hlen]
  exact aesCbc_roundtrip_aux C k n pt.length pt.length iv pt hn hiv hfe hfe

theorem pkcs7_unpad_pad (b : List Nat) :
    LoraReceiver.pkcs7_unpad (LoraSender.pkcs7_pad b) = some b := by
  set p := 16 - b.length % 16 with hp
  have hp1 : 1 ≤ p := by omega
  have hp16 : p ≤ 16 := by omega
  have hpad : LoraSender.pkcs7_pad b = b ++ List.replicate p p := rfl
  have hlast : (b ++ List.replicate p p).getLast? = some p :=
    getLast?_append_replicate b hp1
  have hlen : (b ++ List.replicate p p).length = b.length + p := by
    simp
  have hdropped : (b ++ List.replicate p p).drop ((b ++ List.replicate p p).length - p)
      = List.replicate p p := by
    rw [hlen]
    have : b.length + p - p = b.length := by omega
    rw [this, List.drop_left]
  have htaken : (b ++ List.replicate p p).take ((b ++ List.replicate p p).length - p) = b := by
    rw [hlen]
    have : b.length + p - p = b.length := by omega
    rw [this, List.take_left]
  rw [hpad, LoraReceiver.pkcs7_unpad, hlast]
  simp only [hdropped, htaken]
  have hcond : ¬(p < 1 ∨ 16 < p ∨ List.replicate p p ≠ List.replicate p p) := by
    push_neg
    exact ⟨by omega, by omega, rfl⟩
  rw [if_neg hcond]

theorem unwrap_scan_all_fail (C : BlockCipher) (H : HashFn) (ek nonce : List Nat) :
    ∀ L : List Int,
      (∀ q ∈ L, ((C.dec (LoraSender.kdf_from_rssi_and_nonce H q nonce) ek).drop 16).take 16
        ≠ LoraSender.TAG_BLOCK) →
      LoraSender.unwrap_scan C H ek nonce L = (none, none)
  | [], _ => rfl
  | q :: qs, h => by
    have hq := h q (List.mem_cons_self q qs)
    have ih := unwrap_scan_all_fail C H ek nonce qs
      (fun x hx => h x (List.mem_cons_of_mem q hx))
    simp only [LoraSender.unwrap_scan, LoraSender.aes_ecb_decrypt, hq, ite_false, ite_self]
    exact ih

theorem unwrap_scan_found (C : BlockCipher) (H : HashFn) (sk nonce ek : List Nat) (R : Int)
    (hsk : sk.length = 16)
    (hek : ek = C.enc (LoraSender.kdf_from_rssi_and_nonce H R nonce)
      (sk ++ LoraSender.TAG_BLOCK)) :
    ∀ L : List Int, R ∈ L →
      (∀ q ∈ L, q ≠ R →
        ((C.dec (LoraSender.kdf_from_rssi_and_nonce H q nonce) ek).drop 16).take 16
          ≠ LoraSender.TAG_BLOCK) →
      LoraSender.unwrap_scan C H ek nonce L = (some sk, some R)
  | [], hmem, _ => absurd hmem (List.not_mem_nil R)
  | q :: qs, hmem, h => by
    have hTlen : LoraSender.TAG_BLOCK.length = 16 := rfl
    by_cases hqR : q = R
    · subst hqR
      have hpt : C.dec (LoraSender.kdf_from_rssi_and_nonce H q nonce) ek
          = sk ++ LoraSender.TAG_BLOCK := by rw [hek]; exact C.dec_enc _ _
      have hlen : (sk ++ LoraSender.TAG_BLOCK).length = 32 := by
        rw [List.length_append, hsk, hTlen]
      have hdrop : (sk ++ LoraSender.TAG_BLOCK).drop 16 = LoraSender.TAG_BLOCK := by
        rw [← hsk, List.drop_left]
      have htake : (sk ++ LoraSender.TAG_BLOCK).take 16 = sk := by
        rw [← hsk, List.take_left]
      have htag : ((sk ++ LoraSender.TAG_BLOCK).drop 16).take 16 = LoraSender.TAG_BLOCK := by
        rw [hdrop]; exact List.take_of_length_le (le_of_eq hTlen)
      simp only [LoraSender.unwrap_scan, LoraSender.aes_ecb_decrypt, hpt, hlen, htag, htake]
      simp
    · have hq := h q (List.mem_cons_self q qs) hqR
      have hmem2 : R ∈ qs := by
        cases hmem with
        | head => exact absurd rfl hqR
        | tail _ hm => exact hm
      have ih := unwrap_scan_found C H sk nonce ek R hsk hek qs hmem2
        (fun x hx hxR => h x (List.mem_cons_of_mem q hx) hxR)
      simp only [LoraSender.unwrap_scan, LoraSender.aes_ecb_decrypt, hq, ite_false, ite_self]
      exact ih

theorem mem_candidate_qs {rssi q : Int} :
    q ∈ LoraSender.candidate_qs rssi ↔ rssi - 8 ≤ q ∧ q ≤ rssi + 8 := by
  constructor
  · intro hq
    rcases List.mem_map.mp hq with ⟨dq, hdq, hq2⟩
    rcases List.mem_map.mp hdq with ⟨i, hi, hdq2⟩
    have h := List.mem_range.mp hi
    simp only [LoraSender.RSSI_WINDOW_DB] at h
    subst hq2
    subst hdq2
    simp only [LoraSender.q_rssi, LoraSender.RSSI_WINDOW_DB]
    omega
  · rintro ⟨h1, h2⟩
    refine List.mem_map.mpr ⟨q - rssi, List.mem_map.mpr ⟨(q - rssi + 8).toNat,
      List.mem_range.mpr ?_, ?_⟩, ?_⟩
    · simp only [LoraSender.RSSI_WINDOW_DB]; omega
    · simp only [LoraSender.RSSI_WINDOW_DB]; omega
    · simp only [LoraSender.q_rssi]; omega

/-- C1: Handshake success boundary.  If the Responder wraps
`SessionKey || TagBlock` under `K = Hash("RSSI-KDFv1|" + str(R) + "|" +
nonce)[:16]`, then the Initiator brute force with window 8 and step 1 over an
integer reply RSSI recovers exactly `(SessionKey, R)` whenever
`R ∈ [rssi - 8, rssi + 8]`, and returns `(None, None)` whenever `R` is
outside that window; the `htag` hypothesis is the ideal-cipher side condition
that no candidate other than `R` accidentally decrypts to the tag block. -/
theorem c1_handshake_success_boundary
    (C : BlockCipher) (H : HashFn) (sk nonce ek : List Nat) (R rssi : Int)
    (hsk : sk.length = 16) (hnoncelen : nonce.length = 8)
    (hnb : ∀ x ∈ nonce, x < 256)
    (hek : ek = LoraReceiver.wrap_session_key C H R nonce sk)
    (hekb : ∀ x ∈ ek, x < 256)
    (htag : ∀ q ∈ LoraSender.candidate_qs rssi, q ≠ R →
      ((C.dec (LoraSender.kdf_from_rssi_and_nonce H q nonce) ek).drop 16).take 16
        ≠ LoraSender.TAG_BLOCK) :
    (rssi - 8 ≤ R ∧ R ≤ rssi + 8 →
      LoraSender.unwrap_session_key_bruteforce C H (hexlify ek) (hexlify nonce) rssi
        = some (some sk, some R))
    ∧ (¬(rssi - 8 ≤ R ∧ R ≤ rssi + 8) →
      LoraSender.unwrap_session_key_bruteforce C H (hexlify ek) (hexlify nonce) rssi
        = some (none, none)) := by
  have hem : unhexlify (hexlify ek) = some ek := unhexlify_hexlify ek hekb
  have hnm : unhexlify (hexlify nonce) = some nonce := unhexlify_hexlify nonce hnb
  have hekw : ek = C.enc (LoraSender.kdf_from_rssi_and_nonce H R nonce)
      (sk ++ LoraSender.TAG_BLOCK) := hek
  constructor
  · rintro ⟨h1, h2⟩
    simp only [LoraSender.unwrap_session_key_bruteforce, hem, hnm]
    rw [unwrap_scan_found C H sk nonce ek R hsk hekw (LoraSender.candidate_qs rssi)
      (mem_candidate_qs.mpr ⟨h1, h2⟩) htag]
  · intro hout
    simp only [LoraSender.unwrap_session_key_bruteforce, hem, hnm]
    rw [unwrap_scan_all_fail C H ek nonce (LoraSender.candidate_qs rssi)
      (fun q hq => htag q hq (fun hqR => hout (hqR ▸ mem_candidate_qs.mp hq)))]

/-- Witness for C1: concrete instantiation with the XOR witness cipher and
demo hash at `R = rssi = -73` (inside the window). -/
theorem c1_witness :
    LoraSender.unwrap_session_key_bruteforce xorCipher demoHash (hexlify Wit.ekC1)
      (hexlify Wit.nonce8) (-73) = some (some Wit.sk16, some (-73)) :=
  (c1_handshake_success_boundary xorCipher demoHash Wit.sk16 Wit.nonce8 Wit.ekC1 (-73) (-73)
    (by decide) (by decide) (by decide) rfl (by decide) (by decide)).1 (by decide)

theorem pkcs7_pad_length_dvd (b : List Nat) : 16 ∣ (LoraSender.pkcs7_pad b).length := by
  show 16 ∣ (b ++ List.replicate (16 - b.length % 16) (16 - b.length % 16)).length
  simp only [List.length_append, List.length_replicate]
  omega

/-- C4: Encryption round-trip.  Decrypting the CBC envelope output recovers
the message exactly (`dec_msg_cbc` of `enc_msg_cbc` is `some m`), PKCS#7
unpadding inverts padding on every byte string, and ECB decryption inverts
ECB encryption on every block. -/
theorem c4_encryption_roundtrip (C : BlockCipher) (k iv m b p : List Nat)
    (hiv : iv.length = 16) (hivb : ∀ x ∈ iv, x < 256)
    (hctb : ∀ x ∈ aesCbcEncrypt C k iv (LoraSender.pkcs7_pad m), x < 256) :
    LoraReceiver.dec_msg_cbc C k (LoraSender.enc_msg_cbc C k iv m).1
      (LoraSender.enc_msg_cbc C k iv m).2 = some m
    ∧ LoraReceiver.pkcs7_unpad (LoraSender.pkcs7_pad b) = some b
    ∧ LoraSender.aes_ecb_decrypt C k (LoraReceiver.aes_ecb_encrypt C k p) = p := by
  refine ⟨?_, pkcs7_unpad_pad b, C.dec_enc k p⟩
  show LoraReceiver.dec_msg_cbc C k (hexlify iv)
      (hexlify (aesCbcEncrypt C k iv (LoraSender.pkcs7_pad m))) = some m
  simp only [LoraReceiver.dec_msg_cbc, unhexlify_hexlify iv hivb,
    unhexlify_hexlify _ hctb]
  rw [aesCbc_roundtrip C k iv _ (pkcs7_pad_length_dvd m) hiv, pkcs7_unpad_pad]

/-- Witness for C4 with the XOR witness cipher at concrete key, IV, message,
padding input and 32-byte ECB block. -/
theorem c4_witness :
    LoraReceiver.dec_msg_cbc xorCipher Wit.sk16
      (LoraSender.enc_msg_cbc xorCipher Wit.sk16 Wit.iv16 Wit.msgHi).1
      (LoraSender.enc_msg_cbc xorCipher Wit.sk16 Wit.iv16 Wit.msgHi).2 = some Wit.msgHi
    ∧ LoraReceiver.pkcs7_unpad (LoraSender.pkcs7_pad [1, 2, 3]) = some [1, 2, 3]
    ∧ LoraSender.aes_ecb_decrypt xorCipher Wit.sk16
      (LoraReceiver.aes_ecb_encrypt xorCipher Wit.sk16 (List.replicate 32 5))
      = List.replicate 32 5 :=
  c4_encryption_roundtrip xorCipher Wit.sk16 Wit.iv16 Wit.msgHi [1, 2, 3]
    (List.replicate 32 5) (by decide) (by decide) (by decide)

/-- Counterexample for C2: with the (model) hash instantiated at `demoHash`,
the code's `derive_msg_key` differs from the claimed formula
`Hash("MSG-KDF-v1|" + sk + be32(c))[:16]` at session key `sk16`, counter 0 —
the code inserts an ASCII `"|"` byte between the session key and the counter,
which the claim explicitly excludes. -/
theorem c2_counterexample :
    LoraSender.derive_msg_key demoHash Wit.sk16 0 ≠ specMsgKeyA demoHash Wit.sk16 0 := by
  decide

/-- C2 (amended): `derive_msg_key(sk, c)` equals the first 16 bytes of the
hash of `"MSG-KDF-v1|" + sk + "|" + be32(c)` — with an ASCII pipe byte
between the session key and the big-endian 32-bit counter — and the
derivation is a pure function whose sender, receiver and sniffer-file copies
are equal, so equal `(sk, c)` inputs always yield equal keys. -/
theorem c2_msg_key_variant_a :
    (∀ (H : HashFn) (sk : List Nat) (c : Int),
      LoraSender.derive_msg_key H sk c
        = (H (strB "MSG-KDF-v1|" ++ sk ++ strB "|"
            ++ be32 ((c % 4294967296).toNat))).take 16)
    ∧ LoraSender.derive_msg_key = LoraReceiver.derive_msg_key
    ∧ LoraReceiver.derive_msg_key = EavesApp.derive_msg_key :=
  ⟨fun _ _ _ => rfl, rfl, rfl⟩

/-- C6: Dynamic hop seed and index formulas match the spec expressions, and
the sender and receiver implementations are equal as functions, so both ends
hop to the same frequency in every slot. -/
theorem c6_dynamic_hop_formula :
    (∀ (H : HashFn) (sk : List Nat) (q : Int),
      LoraSender.derive_hop_seed H sk (some q) = specDynamicSeedQ H sk q)
    ∧ (∀ (H : HashFn) (sk : List Nat),
      LoraSender.derive_hop_seed H sk none = specDynamicSeedNoQ H sk)
    ∧ (∀ (H : HashFn) (seed slot : Nat),
      LoraSender.hop_idx_for_slot H seed slot = specDynamicIdx H seed slot)
    ∧ LoraSender.derive_hop_seed = LoraReceiver.derive_hop_seed
    ∧ LoraSender.hop_idx_for_slot = LoraReceiver.hop_idx_for_slot
    ∧ LoraSender.hop_freq_for_slot_seeded = LoraReceiver.hop_freq_for_slot_seeded :=
  ⟨fun _ _ _ => rfl, fun _ _ => rfl, fun _ _ _ => rfl, rfl, rfl, rfl⟩

/-- C10: With `timeout_ms = 0` (the value the sniffer main loop passes), the
timeout branch of `SX1276.recv` and `recv_keep_rx` is never taken: the polling
loop can only return a received frame or a CRC error, never a timeout. -/
theorem c10_recv_zero_timeout_never_times_out :
    (∀ (payload : List Nat) (evs : List (Nat × Nat)),
      LoraMin.recv_poll Eavesdrop.SNIFFER_RECV_TIMEOUT_MS payload evs
        ≠ some LoraMin.RecvOutcome.timedOut)
    ∧ (∀ (payload : List Nat) (evs : List (Nat × Nat)),
      LoraMin.recv_keep_rx_poll 0 payload evs ≠ some LoraMin.RecvOutcome.timedOut) := by
  constructor
  · intro payload evs
    induction evs with
    | nil => simp [LoraMin.recv_poll]
    | cons e rest ih =>
      obtain ⟨irq, elapsed⟩ := e
      by_cases h1 : irq &&& LoraMin.IRQ_RX_DONE_MASK ≠ 0
      · by_cases h2 : irq &&& LoraMin.IRQ_PAYLOAD_CRC_ERROR ≠ 0
        · simp [Eavesdrop.SNIFFER_RECV_TIMEOUT_MS, LoraMin.recv_poll, h1, h2]
        · simp [Eavesdrop.SNIFFER_RECV_TIMEOUT_MS, LoraMin.recv_poll, h1, h2]
      · have hc : ¬((0 : Nat) ≠ 0 ∧ 0 < elapsed) := by simp
        simpa [Eavesdrop.SNIFFER_RECV_TIMEOUT_MS, LoraMin.recv_poll, h1, hc] using ih
  · intro payload evs
    induction evs with
    | nil => simp [LoraMin.recv_keep_rx_poll]
    | cons e rest ih =>
      obtain ⟨irq, elapsed⟩ := e
      by_cases h1 : irq &&& LoraMin.IRQ_RX_DONE_MASK ≠ 0
      · by_cases h2 : irq &&& LoraMin.IRQ_PAYLOAD_CRC_ERROR ≠ 0
        · simp [LoraMin.recv_keep_rx_poll, h1, h2]
        · simp [LoraMin.recv_keep_rx_poll, h1, h2]
      · have hc : ¬((0 : Nat) ≠ 0 ∧ 0 < elapsed) := by simp
        simpa [LoraMin.recv_keep_rx_poll, h1, hc] using ih

theorem attempt_once_mismatch (C : BlockCipher) (H : HashFn) (n8 : List Nat) (kv : KV)
    (rssi : Int) (nv : List Nat) (hget : kvGet kv (strB "nonce") = some nv)
    (hne : nv ≠ hexlify n8) :
    LoraSender.attempt_once C H n8 (some kv) rssi = none := by
  simp only [LoraSender.attempt_once, hget]
  cases h1 : kvGet kv (strB "ek") with
  | none => rfl
  | some ekv =>
    cases h2 : kvGet kv (strB "start_in") with
    | none => rfl
    | some sv => simp [hne]

theorem handshake_loop_hop_seed (C : BlockCipher) (H : HashFn)
    (nonces : Nat → List Nat) (replies : Nat → Option KV) (rssis : Nat → Int) :
    ∀ k : Nat, (LoraSender.handshake_loop C H nonces replies rssis k).session_key = none →
      (LoraSender.handshake_loop C H nonces replies rssis k).hop_seed = none := by
  intro k
  induction k with
  | zero => intro _; rfl
  | succ k ih =>
    intro h
    cases hsk : (LoraSender.handshake_loop C H nonces replies rssis k).session_key with
    | some s =>
      have hstep : LoraSender.handshake_loop C H nonces replies rssis (k + 1)
          = LoraSender.handshake_loop C H nonces replies rssis k := by
        rw [LoraSender.handshake_loop]
        simp only [hsk]
      rw [hstep] at h
      rw [h] at hsk
      exact absurd hsk (by simp)
    | none =>
      cases hat : LoraSender.attempt_once C H
          (nonces (LoraSender.handshake_loop C H nonces replies rssis k).attempt)
          (replies (LoraSender.handshake_loop C H nonces replies rssis k).attempt)
          (rssis (LoraSender.handshake_loop C H nonces replies rssis k).attempt) with
      | some p =>
        obtain ⟨psk, phs⟩ := p
        have hstep : LoraSender.handshake_loop C H nonces replies rssis (k + 1)
            = { LoraSender.handshake_loop C H nonces replies rssis k with
                session_key := some psk, hop_seed := some phs } := by
          rw [LoraSender.handshake_loop]
          simp only [hsk, hat]
        rw [hstep] at h
        exact absurd h (by simp)
      | none =>
        have hstep : LoraSender.handshake_loop C H nonces replies rssis (k + 1)
            = { LoraSender.handshake_loop C H nonces replies rssis k with
                attempt := (LoraSender.handshake_loop C H nonces replies rssis k).attempt
                  + 1 } := by
          rw [LoraSender.handshake_loop]
          simp only [hsk, hat]
        rw [hstep]
        exact ih hsk

/-- C7: Nonce-mismatch rejection with state unchanged.  When the Initiator is
unestablished at loop step `k` and the reply it receives carries an echoed
nonce different from the nonce it drew for that attempt, the reply is
discarded: after the step, `session_key` and `hop_seed` are still `none` (no
`Established` transition), and the attempt counter advances, so the next
attempt sends a Hello built from the next fresh entropy draw. -/
theorem c7_nonce_mismatch_rejection (C : BlockCipher) (H : HashFn)
    (nonces : Nat → List Nat) (replies : Nat → Option KV) (rssis : Nat → Int)
    (k : Nat) (kv : KV) (nv : List Nat)
    (hsk : (LoraSender.handshake_loop C H nonces replies rssis k).session_key = none)
    (hreply : replies (LoraSender.handshake_loop C H nonces replies rssis k).attempt
      = some kv)
    (hget : kvGet kv (strB "nonce") = some nv)
    (hne : nv ≠ hexlify
      (nonces (LoraSender.handshake_loop C H nonces replies rssis k).attempt)) :
    (LoraSender.handshake_loop C H nonces replies rssis (k + 1)).session_key = none
    ∧ (LoraSender.handshake_loop C H nonces replies rssis (k + 1)).hop_seed = none
    ∧ (LoraSender.handshake_loop C H nonces replies rssis (k + 1)).attempt
      = (LoraSender.handshake_loop C H nonces replies rssis k).attempt + 1 := by
  have hat : LoraSender.attempt_once C H
      (nonces (LoraSender.handshake_loop C H nonces replies rssis k).attempt)
      (replies (LoraSender.handshake_loop C H nonces replies rssis k).attempt)
      (rssis (LoraSender.handshake_loop C H nonces replies rssis k).attempt) = none := by
    rw [hreply]
    exact attempt_once_mismatch C H _ kv _ nv hget hne
  have hstep : LoraSender.handshake_loop C H nonces replies rssis (k + 1)
      = { LoraSender.handshake_loop C H nonces replies rssis k with
          attempt := (LoraSender.handshake_loop C H nonces replies rssis k).attempt
            + 1 } := by
    rw [LoraSender.handshake_loop]
    simp only [hsk, hat]
  rw [hstep]
  exact ⟨hsk, handshake_loop_hop_seed C H nonces replies rssis k hsk, rfl⟩

/-- Witness for C7: the first attempt of a concrete run receives a reply
echoing the wrong nonce, and the loop state after that step is still
unestablished with the attempt counter advanced. -/
theorem c7_witness :
    (LoraSender.handshake_loop xorCipher demoHash Wit.noncesW Wit.repliesW Wit.rssisW
      1).session_key = none
    ∧ (LoraSender.handshake_loop xorCipher demoHash Wit.noncesW Wit.repliesW Wit.rssisW
      1).hop_seed = none
    ∧ (LoraSender.handshake_loop xorCipher demoHash Wit.noncesW Wit.repliesW Wit.rssisW
      1).attempt
      = (LoraSender.handshake_loop xorCipher demoHash Wit.noncesW Wit.repliesW Wit.rssisW
        0).attempt + 1 :=
  c7_nonce_mismatch_rejection xorCipher demoHash Wit.noncesW Wit.repliesW Wit.rssisW 0
    Wit.kvBadNonce (hexlify Wit.nonce8b) rfl rfl (by decide) (by decide)

theorem mem_q_range {q : Int} : q ∈ Eavesdrop.q_range ↔ -40 ≤ q ∧ q ≤ 0 := by
  constructor
  · intro hq
    rcases List.mem_map.mp hq with ⟨i, hi, rfl⟩
    have h := List.mem_range.mp hi
    simp only [Eavesdrop.Q_MIN]
    omega
  · rintro ⟨h1, h2⟩
    refine List.mem_map.mpr ⟨(q + 40).toNat, List.mem_range.mpr (by omega), ?_⟩
    simp only [Eavesdrop.Q_MIN]
    omega

theorem recover_scan_all_fail (C : BlockCipher) (H : HashFn) (ek nonce : List Nat) :
    ∀ L : List Int,
      (∀ q ∈ L, ((C.dec (Eavesdrop.kdf_from_rssi_and_nonce H q nonce) ek).drop 16).take 16
        ≠ Eavesdrop.TAG_BLOCK) →
      Eavesdrop.recover_scan C H ek nonce L = none
  | [], _ => rfl
  | q :: qs, h => by
    have hq := h q (List.mem_cons_self q qs)
    have ih := recover_scan_all_fail C H ek nonce qs
      (fun x hx => h x (List.mem_cons_of_mem q hx))
    simp only [Eavesdrop.recover_scan, Eavesdrop.aes_ecb_decrypt, hq, ite_false, ite_self]
    exact ih

theorem recover_scan_found (C : BlockCipher) (H : HashFn) (sk nonce ek : List Nat)
    (q0 : Int) (hsk : sk.length = 16)
    (hek : ek = C.enc (Eavesdrop.kdf_from_rssi_and_nonce H q0 nonce)
      (sk ++ Eavesdrop.TAG_BLOCK)) :
    ∀ L : List Int, q0 ∈ L →
      (∀ q ∈ L, q ≠ q0 →
        ((C.dec (Eavesdrop.kdf_from_rssi_and_nonce H q nonce) ek).drop 16).take 16
          ≠ Eavesdrop.TAG_BLOCK) →
      Eavesdrop.recover_scan C H ek nonce L = some (sk, q0)
  | [], hmem, _ => absurd hmem (List.not_mem_nil q0)
  | q :: qs, hmem, h => by
    have hTlen : Eavesdrop.TAG_BLOCK.length = 16 := rfl
    by_cases hqR : q = q0
    · subst hqR
      have hpt : C.dec (Eavesdrop.kdf_from_rssi_and_nonce H q nonce) ek
          = sk ++ Eavesdrop.TAG_BLOCK := by rw [hek]; exact C.dec_enc _ _
      have hlen : (sk ++ Eavesdrop.TAG_BLOCK).length = 32 := by
        rw [List.length_append, hsk, hTlen]
      have hdrop : (sk ++ Eavesdrop.TAG_BLOCK).drop 16 = Eavesdrop.TAG_BLOCK := by
        rw [← hsk, List.drop_left]
      have htake : (sk ++ Eavesdrop.TAG_BLOCK).take 16 = sk := by
        rw [← hsk, List.take_left]
      have htag : ((sk ++ Eavesdrop.TAG_BLOCK).drop 16).take 16 = Eavesdrop.TAG_BLOCK := by
        rw [hdrop]; exact List.take_of_length_le (le_of_eq hTlen)
      simp only [Eavesdrop.recover_scan, Eavesdrop.aes_ecb_decrypt, hpt, hlen, htag, htake]
      simp
    · have hq := h q (List.mem_cons_self q qs) hqR
      have hmem2 : q0 ∈ qs := by
        cases hmem with
        | head => exact absurd rfl hqR
        | tail _ hm => exact hm
      have ih := recover_scan_found C H sk nonce ek q0 hsk hek qs hmem2
        (fun x hx hxR => h x (List.mem_cons_of_mem q hx) hxR)
      simp only [Eavesdrop.recover_scan, Eavesdrop.aes_ecb_decrypt, hq, ite_false, ite_self]
      exact ih

theorem hsGet_hsSet : ∀ (l : List (List Nat × Eavesdrop.HSRec)) (k : List Nat)
    (v : Eavesdrop.HSRec), Eavesdrop.hsGet (Eavesdrop.hsSet l k v) k = some v
  | [], k, v => by simp [Eavesdrop.hsSet, Eavesdrop.hsGet]
  | (k2, w) :: rest, k, v => by
    by_cases h : k2 = k
    · simp [Eavesdrop.hsSet, Eavesdrop.hsGet, h]
    · simp [Eavesdrop.hsSet, Eavesdrop.hsGet, h, hsGet_hsSet rest k v]

/-- C3: Sniffer full-range recovery.  For a KeyReply wrapped by the Responder
at any quantized RSSI `q0 ∈ [-40, 0]`, `try_recover_key` after `note_ek`
returns `True`, stores exactly the Responder session key in the per-nonce
record, and installs it as the active session key — with no RSSI input; for a
block on which no candidate in `[-40, 0]` produces the tag (a corrupted
`ek`), it returns `False` and leaves the state exactly as `note_ek` left it
(no key recorded). -/
theorem c3_sniffer_full_range_recovery (C : BlockCipher) (H : HashFn)
    (sk nonce : List Nat) (q0 : Int)
    (hsk : sk.length = 16) (hnb : ∀ x ∈ nonce, x < 256)
    (hq0 : -40 ≤ q0 ∧ q0 ≤ 0) :
    (∀ (ek : List Nat) (st0 : Eavesdrop.SnifferSt),
      ek = LoraReceiver.wrap_session_key C H q0 nonce sk →
      (∀ x ∈ ek, x < 256) →
      (∀ q ∈ Eavesdrop.q_range, q ≠ q0 →
        ((C.dec (Eavesdrop.kdf_from_rssi_and_nonce H q nonce) ek).drop 16).take 16
          ≠ Eavesdrop.TAG_BLOCK) →
      (Eavesdrop.try_recover_key C H (hexlify nonce)
          (Eavesdrop.note_ek (hexlify nonce) (hexlify ek) st0)).1 = true
      ∧ (Eavesdrop.try_recover_key C H (hexlify nonce)
          (Eavesdrop.note_ek (hexlify nonce) (hexlify ek) st0)).2.active_session_key
        = some sk
      ∧ (Eavesdrop.try_recover_key C H (hexlify nonce)
          (Eavesdrop.note_ek (hexlify nonce) (hexlify ek) st0)).2.active_nonce
        = some (hexlify nonce)
      ∧ ∃ hs : Eavesdrop.HSRec,
          Eavesdrop.hsGet (Eavesdrop.try_recover_key C H (hexlify nonce)
            (Eavesdrop.note_ek (hexlify nonce) (hexlify ek) st0)).2.handshakes
            (hexlify nonce) = some hs
          ∧ hs.sess = some sk)
    ∧ (∀ (ek : List Nat) (st0 : Eavesdrop.SnifferSt),
      ek ≠ [] → (∀ x ∈ ek, x < 256) →
      (∀ q ∈ Eavesdrop.q_range,
        ((C.dec (Eavesdrop.kdf_from_rssi_and_nonce H q nonce) ek).drop 16).take 16
          ≠ Eavesdrop.TAG_BLOCK) →
      Eavesdrop.try_recover_key C H (hexlify nonce)
          (Eavesdrop.note_ek (hexlify nonce) (hexlify ek) st0)
        = (false, Eavesdrop.note_ek (hexlify nonce) (hexlify ek) st0)) := by
  have hunh_n : unhexlify (hexlify nonce) = some nonce := unhexlify_hexlify nonce hnb
  constructor
  · intro ek st0 hek hekb htag
    have hekw : ek = C.enc (Eavesdrop.kdf_from_rssi_and_nonce H q0 nonce)
        (sk ++ Eavesdrop.TAG_BLOCK) := hek
    have heklen : ek.length = 32 := by
      rw [hekw, C.enc_length, List.length_append, hsk]; rfl
    have hekne : ek ≠ [] := by
      intro hc; rw [hc] at heklen; simp at heklen
    have hunh_e : unhexlify (hexlify ek) = some ek := unhexlify_hexlify ek hekb
    have hscan := recover_scan_found C H sk nonce ek q0 hsk hekw Eavesdrop.q_range
      (mem_q_range.mpr hq0) htag
    have hget1 : Eavesdrop.hsGet
        (Eavesdrop.note_ek (hexlify nonce) (hexlify ek) st0).handshakes (hexlify nonce)
        = some { (Eavesdrop.hsGet st0.handshakes (hexlify nonce)).getD ⟨false, none, none⟩
            with ek_hex := some (hexlify ek) } := by
      simp only [Eavesdrop.note_ek]
      exact hsGet_hsSet _ _ _
    simp only [Eavesdrop.try_recover_key, hget1, hexlify_isEmpty_false hekne,
      Bool.false_eq_true, if_false, hunh_n, hunh_e, hscan]
    exact ⟨trivial, trivial, trivial, ⟨_, hsGet_hsSet _ _ _, rfl⟩⟩
  · intro ek st0 hekne hekb htagall
    have hunh_e : unhexlify (hexlify ek) = some ek := unhexlify_hexlify ek hekb
    have hscan := recover_scan_all_fail C H ek nonce Eavesdrop.q_range htagall
    have hget1 : Eavesdrop.hsGet
        (Eavesdrop.note_ek (hexlify nonce) (hexlify ek) st0).handshakes (hexlify nonce)
        = some { (Eavesdrop.hsGet st0.handshakes (hexlify nonce)).getD ⟨false, none, none⟩
            with ek_hex := some (hexlify ek) } := by
      simp only [Eavesdrop.note_ek]
      exact hsGet_hsSet _ _ _
    simp only [Eavesdrop.try_recover_key, hget1, hexlify_isEmpty_false hekne,
      Bool.false_eq_true, if_false, hunh_n, hunh_e, hscan]

/-- Witness for C3: concrete recovery of `sk16` from the KeyReply wrapped at
`q0 = -20`, and concrete rejection of a corrupted 32-byte block, starting from
the empty sniffer state. -/
theorem c3_witness :
    (Eavesdrop.try_recover_key xorCipher demoHash (hexlify Wit.nonce8)
      (Eavesdrop.note_ek (hexlify Wit.nonce8) (hexlify Wit.ekC3)
        ⟨[], none, none⟩)).1 = true
    ∧ (Eavesdrop.try_recover_key xorCipher demoHash (hexlify Wit.nonce8)
      (Eavesdrop.note_ek (hexlify Wit.nonce8) (hexlify Wit.ekC3)
        ⟨[], none, none⟩)).2.active_session_key = some Wit.sk16
    ∧ Eavesdrop.try_recover_key xorCipher demoHash (hexlify Wit.nonce8)
      (Eavesdrop.note_ek (hexlify Wit.nonce8) (hexlify Wit.ekBad) ⟨[], none, none⟩)
      = (false, Eavesdrop.note_ek (hexlify Wit.nonce8) (hexlify Wit.ekBad)
        ⟨[], none, none⟩) := by
  have hmain := c3_sniffer_full_range_recovery xorCipher demoHash Wit.sk16 Wit.nonce8
    (-20) (by decide) (by decide) (by decide)
  have hpos := hmain.1 Wit.ekC3 ⟨[], none, none⟩ rfl (by decide) (by decide)
  have hneg := hmain.2 Wit.ekBad ⟨[], none, none⟩ (by decide) (by decide) (by decide)
  exact ⟨hpos.1, hpos.2.1, hneg⟩

/-- C8: Padding validation and error containment.  For a nonempty input whose
final byte is `pad`, `pkcs7_unpad` fails exactly when `pad` is outside
`[1, 16]` or the last `pad` bytes are not all `pad`, and otherwise strips the
padding; and the receiver data-frame handler never changes the session state
(no failure escapes it), dropping the frame (no output) on a non-integer
counter. -/
theorem c8_padding_validation_and_containment :
    (∀ (b : List Nat) (pad : Nat), b.getLast? = some pad →
      (LoraReceiver.pkcs7_unpad b = none
        ↔ (pad < 1 ∨ 16 < pad ∨ b.drop (b.length - pad) ≠ List.replicate pad pad))
      ∧ (¬(pad < 1 ∨ 16 < pad ∨ b.drop (b.length - pad) ≠ List.replicate pad pad) →
        LoraReceiver.pkcs7_unpad b = some (b.take (b.length - pad))))
    ∧ (∀ (C : BlockCipher) (H : HashFn) (st : LoraReceiver.RxState) (kv : KV),
      (LoraReceiver.handle_data_frame C H st kv).1 = st)
    ∧ (∀ (C : BlockCipher) (H : HashFn) (st : LoraReceiver.RxState) (kv : KV)
        (cs : List Nat),
      kvGet kv (strB "counter") = some cs → pyIntParse cs = none →
      (LoraReceiver.handle_data_frame C H st kv).2 = none) := by
  refine ⟨?_, ?_, ?_⟩
  · intro b pad hlast
    have hun : LoraReceiver.pkcs7_unpad b
        = if pad < 1 ∨ 16 < pad ∨ b.drop (b.length - pad) ≠ List.replicate pad pad
          then none else some (b.take (b.length - pad)) := by
      simp only [LoraReceiver.pkcs7_unpad, hlast]
    by_cases hc : pad < 1 ∨ 16 < pad ∨ b.drop (b.length - pad) ≠ List.replicate pad pad
    · rw [hun, if_pos hc]
      exact ⟨iff_of_true rfl hc, fun hnc => absurd hc hnc⟩
    · rw [hun, if_neg hc]
      exact ⟨iff_of_false (by simp) hc, fun _ => rfl⟩
  · intro C H st kv
    cases hs : st.session_key with
    | none => simp [LoraReceiver.handle_data_frame, hs]
    | some mk0 =>
      simp only [LoraReceiver.handle_data_frame, hs]
      repeat (first | rfl | split)
  · intro C H st kv cs hcs hparse
    cases hs : st.session_key with
    | none => simp [LoraReceiver.handle_data_frame, hs]
    | some mk0 => simp [LoraReceiver.handle_data_frame, hs, hcs, hparse]

/-- Witness for C8: concrete valid unpadding, state preservation and
dropped frame with a non-integer counter. -/
theorem c8_witness :
    LoraReceiver.pkcs7_unpad [1, 2, 2] = some [1]
    ∧ (LoraReceiver.handle_data_frame xorCipher demoHash ⟨some Wit.sk16, none⟩
      [(strB "kind", strB "data"), (strB "iv", strB "00"), (strB "msg", strB "00"),
        (strB "counter", strB "xy")]).1 = ⟨some Wit.sk16, none⟩
    ∧ (LoraReceiver.handle_data_frame xorCipher demoHash ⟨some Wit.sk16, none⟩
      [(strB "kind", strB "data"), (strB "iv", strB "00"), (strB "msg", strB "00"),
        (strB "counter", strB "xy")]).2 = none := by
  refine ⟨?_,
    c8_padding_validation_and_containment.2.1 xorCipher demoHash _ _,
    c8_padding_validation_and_containment.2.2 xorCipher demoHash _ _ (strB "xy")
      (by decide) (by decide)⟩
  have h2 := (c8_padding_validation_and_containment.1 [1, 2, 2] 2 (by decide)).2 (by decide)
  simpa using h2

/-- Counterexample for C9: after the sniffer has recovered the session key of
the first handshake, observing a Hello with a different nonce does NOT retire
it — the previously recovered key is still the active key and still decrypts
a subsequent Data frame (the source keeps the current key until a new one is
recovered). -/
theorem c9_counterexample :
    hexlify Wit.nonce8b ≠ hexlify Wit.nonce8
    ∧ Wit.stC9.active_nonce = some (hexlify Wit.nonce8)
    ∧ Wit.stC9.active_session_key = some Wit.sk16
    ∧ (Eavesdrop.note_hello (hexlify Wit.nonce8b) Wit.stC9).active_session_key
      = some Wit.sk16
    ∧ Eavesdrop.sniffer_data_step xorCipher
      (Eavesdrop.note_hello (hexlify Wit.nonce8b) Wit.stC9) Wit.kvDataC9
      = some (strB "hi there") := by
  decide

/-- C9 (amended): a recovered SessionKey remains the active key across the
observation of a new Hello — `note_hello` never changes the active key or
active nonce, and Data-frame decryption behaves identically before and after
it — and the active key is replaced only when `try_recover_key` succeeds for
a later KeyReply: on failure the sniffer state is returned unchanged. -/
theorem c9_sniffer_active_key_lifetime :
    (∀ (nhx : List Nat) (st : Eavesdrop.SnifferSt),
      (Eavesdrop.note_hello nhx st).active_session_key = st.active_session_key
      ∧ (Eavesdrop.note_hello nhx st).active_nonce = st.active_nonce)
    ∧ (∀ (C : BlockCipher) (nhx : List Nat) (st : Eavesdrop.SnifferSt) (kv : KV),
      Eavesdrop.sniffer_data_step C (Eavesdrop.note_hello nhx st) kv
        = Eavesdrop.sniffer_data_step C st kv)
    ∧ (∀ (C : BlockCipher) (H : HashFn) (nhx : List Nat) (st : Eavesdrop.SnifferSt),
      (Eavesdrop.try_recover_key C H nhx st).1 = false →
      (Eavesdrop.try_recover_key C H nhx st).2 = st) := by
  refine ⟨fun nhx st => ⟨rfl, rfl⟩, fun C nhx st kv => rfl, ?_⟩
  intro C H nhx st hfalse
  cases h1 : Eavesdrop.hsGet st.handshakes nhx with
  | none => simp [Eavesdrop.try_recover_key, h1]
  | some hs =>
    cases h2 : hs.ek_hex with
    | none => simp [Eavesdrop.try_recover_key, h1, h2]
    | some ekhx =>
      by_cases h3 : ekhx.isEmpty = true
      · simp [Eavesdrop.try_recover_key, h1, h2, h3]
      · cases h4 : unhexlify nhx with
        | none => simp [Eavesdrop.try_recover_key, h1, h2, h3, h4]
        | some nonce =>
          cases h5 : unhexlify ekhx with
          | none => simp [Eavesdrop.try_recover_key, h1, h2, h3, h4, h5]
          | some ek =>
            cases h6 : Eavesdrop.recover_scan C H ek nonce Eavesdrop.q_range with
            | none => simp [Eavesdrop.try_recover_key, h1, h2, h3, h4, h5, h6]
            | some p =>
              obtain ⟨sess, q⟩ := p
              have htrue : (Eavesdrop.try_recover_key C H nhx st).1 = true := by
                simp [Eavesdrop.try_recover_key, h1, h2, h3, h4, h5, h6]
              rw [htrue] at hfalse
              exact absurd hfalse (by simp)

/-- Witness for the amended C9: concrete preservation of the active key
across a new Hello, and concrete unchanged state on a failed recovery. -/
theorem c9_witness :
    (Eavesdrop.note_hello (hexlify Wit.nonce8b) Wit.stC9).active_session_key
      = Wit.stC9.active_session_key
    ∧ (Eavesdrop.try_recover_key xorCipher demoHash (hexlify Wit.nonce8)
        (Eavesdrop.note_ek (hexlify Wit.nonce8) (hexlify Wit.ekBad)
          ⟨[], none, none⟩)).2
      = Eavesdrop.note_ek (hexlify Wit.nonce8) (hexlify Wit.ekBad) ⟨[], none, none⟩ :=
  ⟨(c9_sniffer_active_key_lifetime.1 (hexlify Wit.nonce8b) Wit.stC9).1,
   c9_sniffer_active_key_lifetime.2.2 xorCipher demoHash (hexlify Wit.nonce8) _
     (by decide)⟩
